import Mathlib

/- Verification of the data-harmonization pipeline and generative-model
assembly of the presidential-elections forecasting model
(src/presidential-elections/utils/model.py).

Conventions of the shallow embedding:
- dates are integer day numbers (whole days; all pandas datetimes reaching
  the harmonizer are midnight-aligned, so day arithmetic is exact);
- pandas NaN cells are Option.none; pandas float shares are exact rationals;
- numpy round (round half to even) is roundHalfEven;
- a fatal numpy assertion (np.testing.assert_allclose) is an Except.error. -/

namespace ElectionModel

/-- dates_to_idx: number of days from timepoint to referenceDate
((reference_date - timelist) / timedelta64(1, "D")). -/
def datesToIdx (timepoint referenceDate : ℤ) : ℤ := referenceDate - timepoint

/-- Sum of the present (non-NaN) cells of a row of share columns;
pandas DataFrame.sum skips NaN, so an all-NaN row sums to 0. -/
def sumPresent {n : ℕ} (shares : Fin n → Option ℚ) : ℚ := ∑ f, ((shares f).getD 0)

/-- The residual category of _format_polls: the eighth (other) share column is
set to 100 minus the row sum of the seven named family share columns. -/
def addOther (shares : Fin 7 → Option ℚ) : Fin 8 → Option ℚ :=
  Fin.snoc shares (some (100 - sumPresent shares))

/-- The np.testing.assert_allclose(row_sums, 100) check of _format_polls:
with numpy defaults rtol = 1e-7 and atol = 0 the row total x passes exactly
when |x - 100| ≤ 1e-7 * |100|. -/
def allclose100 (x : ℚ) : Bool := decide (|x - 100| ≤ 100 * (1 / 10 ^ 7))

/-- The share-column part of _format_polls: compute the residual other column
for every row, then fatally assert that every row's eight shares sum to 100
within floating tolerance (the numpy assertion aborts the build otherwise). -/
def formatPollsShares (rows : List (Fin 7 → Option ℚ)) :
    Except Unit (List (Fin 8 → Option ℚ)) :=
  let out := rows.map addOther
  if out.all (fun row => allclose100 (sumPresent row)) then .ok out else .error ()

/-- Round half to even, the rounding used by pandas DataFrame.round()
(numpy rounding). -/
def roundHalfEven (q : ℚ) : ℤ :=
  if q - ⌊q⌋ < 1 / 2 then ⌊q⌋
  else if 1 / 2 < q - ⌊q⌋ then ⌊q⌋ + 1
  else if Even ⌊q⌋ then ⌊q⌋ else ⌊q⌋ + 1

/-- The count computation of cast_as_multinomial:
(df[families] / 100).mul(df["samplesize"]).round().fillna(0).astype(int).
A missing share yields NaN through round and becomes 0 via fillna. -/
def castCounts (shares : Fin 8 → Option ℚ) (samplesize : ℚ) (f : Fin 8) : ℤ :=
  match shares f with
  | some s => roundHalfEven (s / 100 * samplesize)
  | none => 0

/-- cast_as_multinomial on one row: the integer counts per political family,
and the samplesize column overwritten with the row sum of those counts. -/
def castAsMultinomial (shares : Fin 8 → Option ℚ) (samplesize : ℚ) :
    (Fin 8 → ℤ) × ℤ :=
  (castCounts shares samplesize, ∑ f, castCounts shares samplesize f)

lemma sumPresent_addOther (shares : Fin 7 → Option ℚ) :
    sumPresent (addOther shares) = 100 := by
  simp [sumPresent, addOther, Fin.sum_univ_castSucc]

lemma roundHalfEven_zero : roundHalfEven 0 = 0 := by
  norm_num [roundHalfEven]

/-- C1: for every row of the harmonized poll/result table produced by
_format_polls, after the residual other share is computed as 100 minus the
sum of the seven named family shares, the eight family shares sum to exactly
100 (in particular within 1e-6), the fatal assert_allclose check passes, and
the harmonization of any list of rows therefore never aborts. -/
theorem c1_shares_sum_to_100 (shares : Fin 7 → Option ℚ)
    (rows : List (Fin 7 → Option ℚ)) :
    sumPresent (addOther shares) = 100 ∧
    |sumPresent (addOther shares) - 100| ≤ 1 / 1000000 ∧
    allclose100 (sumPresent (addOther shares)) = true ∧
    formatPollsShares rows = .ok (rows.map addOther) := by
  refine ⟨sumPresent_addOther shares, ?_, ?_, ?_⟩
  · rw [sumPresent_addOther]; norm_num
  · rw [sumPresent_addOther]; norm_num [allclose100]
  · unfold formatPollsShares
    have hall : (rows.map addOther).all (fun row => allclose100 (sumPresent row)) = true := by
      rw [List.all_eq_true]
      intro row hrow
      obtain ⟨r, _, rfl⟩ := List.mem_map.mp hrow
      rw [sumPresent_addOther]; norm_num [allclose100]
    simp [hall]

/-- C2: for every row encoded by cast_as_multinomial, the count of each
family equals the (numpy half-to-even) rounding of share/100 * samplesize
with a missing share treated as 0, and the trial count stored back into the
samplesize column equals, as an exact integer identity, the sum of the eight
family counts of the row. -/
theorem c2_multinomial_counts_consistent (shares : Fin 8 → Option ℚ) (n : ℚ) :
    (∀ f, (castAsMultinomial shares n).1 f
      = roundHalfEven (((shares f).getD 0) / 100 * n)) ∧
    (castAsMultinomial shares n).2 = ∑ f, (castAsMultinomial shares n).1 f := by
  constructor
  · intro f
    unfold castAsMultinomial castCounts
    cases h : shares f with
    | none => simp [h, roundHalfEven_zero]
    | some s => simp [h]
  · rfl

/-- One hypothesis of a current-cycle (2022) poll record: the candidate
names its intention breakdown covers. -/
structure PollHypothesis where
  intentions : List String
deriving DecidableEq

/-- The reference candidate of select_hypothesis. -/
def taubiraName : String := "Christiane Taubira"

/-- The membership test of select_hypothesis:
"Christiane Taubira" in hypothesis["intentions"].keys(). -/
def hasTaubira (h : PollHypothesis) : Bool := taubiraName ∈ h.intentions

/-- The loop of select_hypothesis: return the first hypothesis containing the
reference candidate; otherwise the Python for-loop falls through and the
trailing return statement returns the loop variable, i.e. the hypothesis seen
last. lastSeen tracks the loop variable; none models the NameError raised by
the trailing return when the list is empty. -/
def selectHypothesisGo (lastSeen : Option PollHypothesis) :
    List PollHypothesis → Option PollHypothesis
  | [] => lastSeen
  | h :: rest => if hasTaubira h then some h else selectHypothesisGo (some h) rest

/-- select_hypothesis on the list of hypotheses of one poll. -/
def selectHypothesis (poll : List PollHypothesis) : Option PollHypothesis :=
  selectHypothesisGo none poll

lemma selectHypothesisGo_eq (poll : List PollHypothesis)
    (acc : Option PollHypothesis) (hne : poll ≠ []) :
    selectHypothesisGo acc poll
      = some ((poll.find? hasTaubira).getD (poll.getLast hne)) := by
  induction poll generalizing acc with
  | nil => exact absurd rfl hne
  | cons h t ih =>
    by_cases hh : hasTaubira h
    · simp [selectHypothesisGo, hh, List.find?_cons_of_pos _ hh]
    · rw [List.find?_cons_of_neg _ (by simpa using hh)]
      cases t with
      | nil => simp [selectHypothesisGo, hh, List.getLast]
      | cons h2 t2 =>
        rw [List.getLast_cons (by simp)]
        rw [show selectHypothesisGo acc (h :: h2 :: t2)
              = selectHypothesisGo (some h) (h2 :: t2) by simp [selectHypothesisGo, hh]]
        exact ih (some h) (by simp)

/-- A concrete 2022 poll record with two hypotheses, neither of which
includes the reference candidate. -/
def c4poll : List PollHypothesis := [⟨[r"Candidate A"]⟩, ⟨[r"Candidate B"]⟩]

/-- C4 counterexample: on a two-hypothesis poll where no hypothesis includes
"Christiane Taubira", select_hypothesis returns the second (last) hypothesis,
not the first one as the claim states. -/
theorem c4_counterexample :
    (∀ h ∈ c4poll, hasTaubira h = false) ∧
    c4poll.head? = some ⟨[r"Candidate A"]⟩ ∧
    selectHypothesis c4poll = some ⟨[r"Candidate B"]⟩ ∧
    selectHypothesis c4poll ≠ c4poll.head? := by decide

/-- C4 amended: for every non-empty list of hypotheses, select_hypothesis
returns the first hypothesis whose intentions include "Christiane Taubira"
when one is present, and otherwise returns the LAST hypothesis of the list
(the final value of the Python loop variable), not the first. -/
theorem c4_select_hypothesis (poll : List PollHypothesis) (hne : poll ≠ []) :
    selectHypothesis poll
      = some ((poll.find? hasTaubira).getD (poll.getLast hne)) :=
  selectHypothesisGo_eq poll none hne

/-- C4 witness: the amended theorem applied to a concrete two-hypothesis
poll without the reference candidate. -/
theorem c4_select_hypothesis_witness :
    selectHypothesis [⟨[r"X"]⟩, ⟨[r"Y"]⟩] = some ⟨[r"Y"]⟩ := by
  rw [c4_select_hypothesis [⟨[r"X"]⟩, ⟨[r"Y"]⟩] (by decide)]
  decide

/-- pandas factorize(): the unique values of a column in order of first
appearance. -/
def uniqueFirst {α : Type} [DecidableEq α] : List α → List α
  | [] => []
  | a :: l => a :: uniqueFirst (l.filter fun b => b ≠ a)
termination_by l => l.length
decreasing_by
  simp only [List.length_cons]
  exact Nat.lt_succ_of_le (List.length_filter_le _ _)

/-- The fields of a harmonized poll/result row that the countdown step of
_format_polls reads: election date, poll date (integer day numbers) and the
pollster column. -/
structure RawRow where
  dateelection : ℤ
  date : ℤ
  sondage : String
deriving DecidableEq

/-- The pollster sentinel of the pseudo-poll rows carrying official results. -/
def resultLabel : String := "result"

/-- One iteration of the countdown loop of _format_polls: the rows of
election e dated on or after Jan 1 of the election year, with
countdown = dates_to_idx(date, reference_date = e) attached (the astype(int)
cast is exact because all dates are whole days). janFirst maps a day to the
day number of Jan 1 of its calendar year. -/
def electionCountdownRows (janFirst : ℤ → ℤ) (rows : List RawRow) (e : ℤ) :
    List (RawRow × ℤ) :=
  (rows.filter fun r => r.dateelection = e ∧ janFirst e ≤ r.date).map
    fun r => (r, datesToIdx r.date e)

/-- Concatenation of a list of lists (pd.concat(dfs)). -/
def concatLists {α : Type} : List (List α) → List α
  | [] => []
  | l :: ls => l ++ concatLists ls

/-- The countdown computation of _format_polls: for every election date in
order of first appearance, keep that election's rows dated on or after Jan 1
of the election year and attach their countdown, then concatenate. -/
def withCountdown (janFirst : ℤ → ℤ) (rows : List RawRow) : List (RawRow × ℤ) :=
  concatLists ((uniqueFirst (rows.map fun r => r.dateelection)).map
    (electionCountdownRows janFirst rows))

lemma mem_concatLists {α : Type} {x : α} {ls : List (List α)} :
    x ∈ concatLists ls ↔ ∃ l ∈ ls, x ∈ l := by
  induction ls with
  | nil => simp [concatLists]
  | cons l ls ih => simp [concatLists, ih]

lemma mem_withCountdown {janFirst : ℤ → ℤ} {rows : List RawRow}
    {c : RawRow × ℤ} (hc : c ∈ withCountdown janFirst rows) :
    c.1 ∈ rows ∧ c.2 = datesToIdx c.1.date c.1.dateelection := by
  unfold withCountdown at hc
  obtain ⟨l, hl, hcl⟩ := mem_concatLists.mp hc
  obtain ⟨e, _, rfl⟩ := List.mem_map.mp hl
  unfold electionCountdownRows at hcl
  obtain ⟨r, hr, rfl⟩ := List.mem_map.mp hcl
  have hfil := List.mem_filter.mp hr
  have he : r.dateelection = e := by
    have := of_decide_eq_true hfil.2
    exact this.1
  exact ⟨hfil.1, by simp [he]⟩

/-- C5: in the output of the countdown step of _format_polls, every row's
countdown is the number of days between the poll date and the election date;
provided result pseudo-rows are dated on election day (how the harmonizer
constructs them) and every kept row is dated no later than its election
(polls precede the election they forecast), the countdown is exactly 0 at
every result row and non-negative at every other row. -/
theorem c5_countdown_zero_at_result (janFirst : ℤ → ℤ) (rows : List RawRow)
    (hresult : ∀ r ∈ rows, r.sondage = resultLabel → r.date = r.dateelection)
    (horder : ∀ r ∈ rows, r.date ≤ r.dateelection) :
    ∀ c ∈ withCountdown janFirst rows,
      c.2 = c.1.dateelection - c.1.date ∧
      (c.1.sondage = resultLabel → c.2 = 0) ∧
      0 ≤ c.2 := by
  intro c hc
  obtain ⟨hmem, hval⟩ := mem_withCountdown hc
  refine ⟨by simpa [datesToIdx] using hval, ?_, ?_⟩
  · intro hres
    rw [hval, datesToIdx, hresult c.1 hmem hres, sub_self]
  · rw [hval, datesToIdx]
    exact sub_nonneg.mpr (horder c.1 hmem)

/-- Concrete input for the C5 witness: a result pseudo-row dated on election
day and one earlier poll row, with Jan 1 of the (abstract) year 90 days
before the election. -/
def c5rows : List RawRow :=
  [⟨200, 200, r"result"⟩, ⟨200, 130, r"ifop"⟩]

/-- C5 witness: the theorem applied to the concrete two-row table. -/
theorem c5_countdown_witness :
    (∀ r ∈ c5rows, r.sondage = resultLabel → r.date = r.dateelection) ∧
    (∀ r ∈ c5rows, r.date ≤ r.dateelection) ∧
    ∀ c ∈ withCountdown (fun d => d - 100) c5rows,
      c.2 = c.1.dateelection - c.1.date ∧
      (c.1.sondage = resultLabel → c.2 = 0) ∧
      0 ≤ c.2 :=
  ⟨by decide, by decide,
    c5_countdown_zero_at_result (fun d => d - 100) c5rows (by decide) (by decide)⟩

/-- The jsons-accumulation loop of results_as_multinomial: for each election
year look up the official first-round entry (expressed-vote total); a missing
year raises KeyError, which is caught locally and the loop continues.
rawResults maps a year to its entry when available (raw_json[year]). -/
def resultsJsons (years : List ℤ) (rawResults : ℤ → Option ℚ) : List (ℤ × ℚ) :=
  years.filterMap fun y => (rawResults y).map fun v => (y, v)

/-- results_as_multinomial up to the pd.concat(jsons) call: pandas concat
raises on an empty list of frames, modelled as Except.error. -/
def resultsExpressedTable (years : List ℤ) (rawResults : ℤ → Option ℚ) :
    Except Unit (List (ℤ × ℚ)) :=
  if resultsJsons years rawResults = [] then .error ()
  else .ok (resultsJsons years rawResults)

lemma mem_resultsJsons {years : List ℤ} {rawResults : ℤ → Option ℚ}
    {y : ℤ} {v : ℚ} :
    (y, v) ∈ resultsJsons years rawResults ↔ y ∈ years ∧ rawResults y = some v := by
  unfold resultsJsons
  rw [List.mem_filterMap]
  constructor
  · rintro ⟨a, ha, hav⟩
    cases hr : rawResults a with
    | none => rw [hr] at hav; exact Option.noConfusion hav
    | some w =>
      rw [hr] at hav
      have hav2 : some (a, w) = some (y, v) := hav
      have hp : (a, w) = (y, v) := Option.some.inj hav2
      have ha2 : a = y := congrArg Prod.fst hp
      have hw2 : w = v := congrArg Prod.snd hp
      subst ha2
      subst hw2
      exact ⟨ha, hr⟩
  · rintro ⟨hy, hv⟩
    exact ⟨y, hy, by rw [hv]; rfl⟩

/-- C8: when building the results table, an election year whose official
results are not yet available is skipped locally, the loop continues, and as
long as at least one other year's results exist the table is produced
(no abort), containing a row for every year whose results are available and
no row for the missing year. -/
theorem c8_missing_year_skipped (years : List ℤ) (rawResults : ℤ → Option ℚ)
    (y : ℤ) (hy : y ∈ years) (hmiss : rawResults y = none)
    (hother : ∃ z ∈ years, ∃ w, rawResults z = some w) :
    resultsExpressedTable years rawResults = .ok (resultsJsons years rawResults) ∧
    (∀ z ∈ years, ∀ w, rawResults z = some w →
      (z, w) ∈ resultsJsons years rawResults) ∧
    (∀ w, (y, w) ∉ resultsJsons years rawResults) := by
  refine ⟨?_, ?_, ?_⟩
  · obtain ⟨z, hz, w, hw⟩ := hother
    have hne : resultsJsons years rawResults ≠ [] := by
      intro hnil
      have : (z, w) ∈ resultsJsons years rawResults :=
        mem_resultsJsons.mpr ⟨hz, hw⟩
      rw [hnil] at this
      exact absurd this (List.not_mem_nil _)
    unfold resultsExpressedTable
    rw [if_neg hne]
  · intro z hz w hw
    exact mem_resultsJsons.mpr ⟨hz, hw⟩
  · intro w hw
    have := (mem_resultsJsons.mp hw).2
    rw [hmiss] at this
    exact Option.noConfusion this

/-- Result lookup for the C8 witness: results exist for 2017 but not 2022. -/
def c8lookup (y : ℤ) : Option ℚ := if y = 2017 then some 35000000 else none

/-- C8 witness: the theorem applied to the year list [2017, 2022] where the
2022 results are missing. -/
theorem c8_missing_year_witness :
    resultsExpressedTable [2017, 2022] c8lookup
        = .ok (resultsJsons [2017, 2022] c8lookup) ∧
    (∀ z ∈ [(2017 : ℤ), 2022], ∀ w, c8lookup z = some w →
      (z, w) ∈ resultsJsons [2017, 2022] c8lookup) ∧
    (∀ w, ((2022 : ℤ), w) ∉ resultsJsons [2017, 2022] c8lookup) :=
  c8_missing_year_skipped [2017, 2022] c8lookup 2022 (by decide) (by decide)
    ⟨2017, by decide, 35000000, by decide⟩

/-- The join-and-check of _join_with_continuous_predictors: attach to every
forecast date the unemployment value of its quarter; the
np.testing.assert_allclose(0, isna().any().mean()) fatally rejects the frame
when any joined value is missing; on success the predictor is standardized
with the mean and standard deviation of the TRAINING predictor table
(self.continuous_predictors), which are inputs here, never recomputed from
the forecast frame. -/
def joinWithContinuousPredictors (trainMean trainStd : ℚ)
    (unemploymentByQuarter : ℤ → Option ℚ) (quarterOf : ℤ → ℤ)
    (dates : List ℤ) : Except Unit (List (ℤ × ℚ)) :=
  let joined := dates.map fun d => (d, unemploymentByQuarter (quarterOf d))
  if ∀ p ∈ joined, p.2.isSome then
    .ok (joined.map fun p => (p.1, ((p.2.getD 0) - trainMean) / trainStd))
  else .error ()

/-- C9: the forecast join fails fatally when any covariate value is missing
after the join, rather than imputing; and when no value is missing it returns
the joined frame with the predictor standardized using the training-time mean
and standard deviation. -/
theorem c9_join_missing_fatal (trainMean trainStd : ℚ)
    (unemploymentByQuarter : ℤ → Option ℚ) (quarterOf : ℤ → ℤ)
    (dates : List ℤ) :
    ((∃ d ∈ dates, unemploymentByQuarter (quarterOf d) = none) →
      joinWithContinuousPredictors trainMean trainStd unemploymentByQuarter
        quarterOf dates = .error ()) ∧
    ((∀ d ∈ dates, (unemploymentByQuarter (quarterOf d)).isSome) →
      joinWithContinuousPredictors trainMean trainStd unemploymentByQuarter
        quarterOf dates
        = .ok (dates.map fun d =>
            (d, ((unemploymentByQuarter (quarterOf d)).getD 0 - trainMean)
              / trainStd))) := by
  constructor
  · rintro ⟨d, hd, hnone⟩
    unfold joinWithContinuousPredictors
    rw [if_neg]
    intro hall
    have := hall (d, unemploymentByQuarter (quarterOf d))
      (List.mem_map.mpr ⟨d, hd, rfl⟩)
    rw [hnone] at this
    simp at this
  · intro hall
    unfold joinWithContinuousPredictors
    rw [if_pos, List.map_map]
    · rfl
    · rintro p hp
      obtain ⟨d, hd, rfl⟩ := List.mem_map.mp hp
      simpa using hall d hd

/-- C9 witness: the theorem applied to one missing-covariate frame (fatal)
and one fully joined frame (standardized with the given training mean 3 and
standard deviation 2: (7 - 3) / 2 = 2). -/
theorem c9_join_missing_witness :
    joinWithContinuousPredictors 3 2 (fun _ => none) (fun d => d) [0]
        = .error () ∧
    joinWithContinuousPredictors 3 2 (fun _ => some 7) (fun d => d) [0]
        = .ok [(0, 2)] := by
  constructor
  · exact (c9_join_missing_fatal 3 2 (fun _ => none) (fun d => d) [0]).1
      ⟨0, by decide, rfl⟩
  · rw [(c9_join_missing_fatal 3 2 (fun _ => some 7) (fun d => d) [0]).2
      (by intro d _; rfl)]
    norm_num

/-- pd.date_range(periods, end = endDate, freq = "D"): the periods
consecutive days ending on endDate. -/
def dateRangeEndDaily (periods : ℕ) (endDate : ℤ) : List ℤ :=
  (List.range periods).map fun i : ℕ => endDate - ((periods : ℤ) - 1) + (i : ℤ)

/-- The number of dates generated per election by _generate_oos_data:
max(countdown.data) + 1, read off the posterior countdown coordinate. -/
def periodsOfCountdownCoord (coord : List ℕ) : ℕ := coord.foldr max 0 + 1

/-- The synthetic dates _generate_oos_data builds for one forecast election:
a daily range ending on the election date. -/
def oosDatesFor (countdownCoord : List ℕ) (electionDate : ℤ) : List ℤ :=
  dateRangeEndDaily (periodsOfCountdownCoord countdownCoord) electionDate

/-- The full new_dates sequence of _generate_oos_data: the concatenation of
the per-election daily ranges over the (training) election coordinate. -/
def oosDates (countdownCoord : List ℕ) (elections : List ℤ) : List ℤ :=
  concatLists (elections.map (oosDatesFor countdownCoord))

lemma foldr_max_const (l : List ℕ) (b : ℕ) (hb : ∀ x ∈ l, x ≤ b) :
    l.foldr max b = b := by
  induction l with
  | nil => rfl
  | cons a t ih =>
    simp only [List.foldr_cons]
    rw [ih fun x hx => hb x (List.mem_cons_of_mem a hx)]
    exact Nat.max_eq_right (hb a (List.mem_cons_self a t))

lemma foldr_max_range (n : ℕ) : (List.range (n + 1)).foldr max 0 = n := by
  rw [List.range_succ, List.foldr_append]
  simp only [List.foldr_cons, List.foldr_nil, Nat.max_zero]
  exact foldr_max_const _ n fun x hx => Nat.le_of_lt (List.mem_range.mp hx)

lemma periodsOfCountdown_range (n : ℕ) :
    periodsOfCountdownCoord (List.range (n + 1)) = n + 1 := by
  unfold periodsOfCountdownCoord
  rw [foldr_max_range]

lemma dateRange_getElem (p : ℕ) (d : ℤ) (i : ℕ) (hi : i < p) :
    (dateRangeEndDaily p d)[i]? = some (d - ((p : ℤ) - 1) + i) := by
  unfold dateRangeEndDaily
  rw [List.getElem?_map, List.getElem?_range hi]
  rfl

/-- C7: for a training countdown coordinate 0..maxC, the synthetic
out-of-sample frame of _generate_oos_data contains, for each forecast
election, exactly maxC + 1 dates, spaced one calendar day apart and ending on
that election's date (so a countdown range 0..59 yields exactly 60 dates). -/
theorem c7_oos_dates (maxC : ℕ) (d : ℤ) :
    (oosDatesFor (List.range (maxC + 1)) d).length = maxC + 1 ∧
    (∀ i : ℕ, i < maxC →
      (oosDatesFor (List.range (maxC + 1)) d)[i + 1]?
        = ((oosDatesFor (List.range (maxC + 1)) d)[i]?).map (fun x => x + 1)) ∧
    (oosDatesFor (List.range (maxC + 1)) d)[maxC]? = some d := by
  have hper : periodsOfCountdownCoord (List.range (maxC + 1)) = maxC + 1 :=
    periodsOfCountdown_range maxC
  refine ⟨?_, ?_, ?_⟩
  · unfold oosDatesFor dateRangeEndDaily
    rw [hper, List.length_map, List.length_range]
  · intro i hi
    unfold oosDatesFor
    rw [hper, dateRange_getElem _ _ _ (by omega), dateRange_getElem _ _ _ (by omega)]
    simp only [Option.map_some']
    congr 1
    push_cast
    ring
  · unfold oosDatesFor
    rw [hper, dateRange_getElem _ _ _ (by omega)]
    congr 1
    push_cast
    ring

/-- C7 witness: the theorem at countdown range 0..59 and election day 0
(60 dates, day 4 is day 3 plus one, last date is the election date). -/
theorem c7_oos_dates_witness :
    (oosDatesFor (List.range 60) 0).length = 60 ∧
    (oosDatesFor (List.range 60) 0)[4]?
      = ((oosDatesFor (List.range 60) 0)[3]?).map (fun x => x + 1) ∧
    (oosDatesFor (List.range 60) 0)[59]? = some 0 :=
  ⟨(c7_oos_dates 59 0).1, (c7_oos_dates 59 0).2.1 3 (by norm_num),
    (c7_oos_dates 59 0).2.2⟩


lemma uniqueFirst_nil {α : Type} [DecidableEq α] : uniqueFirst ([] : List α) = [] := by
  rw [uniqueFirst]

lemma uniqueFirst_cons {α : Type} [DecidableEq α] (a : α) (t : List α) :
    uniqueFirst (a :: t) = a :: uniqueFirst (t.filter fun b => b ≠ a) := by
  rw [uniqueFirst]

lemma mem_of_mem_uniqueFirst {α : Type} [DecidableEq α] :
    ∀ (l : List α) (x : α), x ∈ uniqueFirst l → x ∈ l
  | [], _, hx => by rw [uniqueFirst_nil] at hx; exact absurd hx (List.not_mem_nil _)
  | a :: t, x, hx => by
    rw [uniqueFirst_cons] at hx
    rcases List.mem_cons.mp hx with h | h
    · exact h ▸ List.mem_cons_self a t
    · exact List.mem_cons_of_mem a
        (List.mem_of_mem_filter (mem_of_mem_uniqueFirst _ x h))
termination_by l => l.length
decreasing_by
  simp only [List.length_cons]
  exact Nat.lt_succ_of_le (List.length_filter_le _ _)

lemma uniqueFirst_nodup {α : Type} [DecidableEq α] :
    ∀ l : List α, (uniqueFirst l).Nodup
  | [] => by rw [uniqueFirst_nil]; exact List.nodup_nil
  | a :: t => by
    rw [uniqueFirst_cons]
    refine List.nodup_cons.mpr ⟨?_, uniqueFirst_nodup _⟩
    intro ha
    have := List.of_mem_filter (mem_of_mem_uniqueFirst _ a ha)
    simp at this
termination_by l => l.length
decreasing_by
  simp only [List.length_cons]
  exact Nat.lt_succ_of_le (List.length_filter_le _ _)

lemma uniqueFirst_eq_self {α : Type} [DecidableEq α] :
    ∀ l : List α, l.Nodup → uniqueFirst l = l
  | [], _ => uniqueFirst_nil
  | a :: t, hnd => by
    rw [uniqueFirst_cons]
    obtain ⟨ha, ht⟩ := List.nodup_cons.mp hnd
    have hfil : t.filter (fun b => b ≠ a) = t :=
      List.filter_eq_self.mpr fun b hb => by
        simp only [ne_eq, decide_eq_true_eq]
        exact fun hba => ha (hba ▸ hb)
    rw [uniqueFirst_eq_self (t.filter fun b => b ≠ a) (by rw [hfil]; exact ht), hfil]
termination_by l => l.length
decreasing_by
  simp only [List.length_cons]
  exact Nat.lt_succ_of_le (List.length_filter_le _ _)

lemma uniqueFirst_idem {α : Type} [DecidableEq α] (l : List α) :
    uniqueFirst (uniqueFirst l) = uniqueFirst l :=
  uniqueFirst_eq_self _ (uniqueFirst_nodup l)

/-- np.repeat(values, repeats = k): each element repeated k times in place. -/
def repeatEach {α : Type} (k : ℕ) : List α → List α
  | [] => []
  | a :: l => List.replicate k a ++ repeatEach k l

lemma filter_repeatEach {α : Type} (p : α → Bool) (k : ℕ) :
    ∀ l : List α, (repeatEach k l).filter p = repeatEach k (l.filter p) := by
  intro l
  induction l with
  | nil => rfl
  | cons a t ih =>
    show (List.replicate k a ++ repeatEach k t).filter p = _
    rw [List.filter_append, ih, List.filter_replicate, List.filter_cons]
    by_cases hp : p a
    · rw [if_pos hp, if_pos hp]
      rfl
    · rw [if_neg hp, if_neg hp, List.nil_append]

lemma uniqueFirst_repeatEach {α : Type} [DecidableEq α] (k : ℕ) (hk : 0 < k) :
    ∀ l : List α, uniqueFirst (repeatEach k l) = uniqueFirst l
  | [] => rfl
  | a :: t => by
    obtain ⟨j, rfl⟩ : ∃ j, k = j + 1 := ⟨k - 1, (Nat.succ_pred_eq_of_pos hk).symm⟩
    have hexp : repeatEach (j + 1) (a :: t)
        = a :: (List.replicate j a ++ repeatEach (j + 1) t) := by
      show List.replicate (j + 1) a ++ repeatEach (j + 1) t = _
      rw [List.replicate_succ, List.cons_append]
    rw [hexp, uniqueFirst_cons, uniqueFirst_cons, List.filter_append,
      List.filter_replicate, if_neg (by simp), List.nil_append,
      filter_repeatEach _ _ t,
      uniqueFirst_repeatEach (j + 1) hk (t.filter fun b => b ≠ a)]
termination_by l => l.length
decreasing_by
  simp only [List.length_cons]
  exact Nat.lt_succ_of_le (List.length_filter_le _ _)

/-- pandas factorize(sort = True): the sorted unique values of a column. -/
def sortedUnique (l : List String) : List String :=
  List.insertionSort (fun a b => a ≤ b) (uniqueFirst l)

/-- The columns of a harmonized row that _build_coords reads. -/
structure CoordRow where
  dateelection : ℤ
  sondage : String
  countdown : ℕ
deriving DecidableEq

/-- The four coordinate index structures returned by _build_coords
(elections_observed is the elections coordinate without its last entry). -/
structure Coords where
  pollsters : List String
  countdown : List ℕ
  elections : List ℤ
  electionsObserved : List ℤ
deriving DecidableEq

/-- _build_coords on a dataframe: pollsters = factorize(sort=True) of the
pollster column, countdown = np.arange(max countdown + 1), elections =
factorize() of the election-date column (first-appearance order),
elections_observed = elections[:-1]. -/
def buildCoords (rows : List CoordRow) : Coords :=
  { pollsters := sortedUnique (rows.map fun r => r.sondage)
    countdown := List.range ((rows.map fun r => r.countdown).foldr max 0 + 1)
    elections := uniqueFirst (rows.map fun r => r.dateelection)
    electionsObserved := (uniqueFirst (rows.map fun r => r.dateelection)).dropLast }

/-- The coordinate source chosen at the top of build_model:
data = polls if polls is not None else self.polls_train; forecast_election
passes the synthetic forecast frame as polls. -/
def coordsForBuildModel (pollsTrain : List CoordRow)
    (polls : Option (List CoordRow)) : Coords :=
  buildCoords (polls.getD pollsTrain)

/-- Training data for the C3 counterexample: two pollsters A and B over two
elections. -/
def c3train : List CoordRow := [⟨100, r"B", 5⟩, ⟨200, r"A", 3⟩]

/-- Forecast frame for the C3 counterexample: the random pollster resampling
drew pollster A twice and pollster B never. -/
def c3forecast : List CoordRow := [⟨100, r"A", 5⟩, ⟨100, r"A", 3⟩]

/-- C3 counterexample: build_model rebuilds the coordinates from the polls
frame it is given, so the call made by forecast_election evaluates the model
under coordinates derived from the synthetic forecast frame: with training
pollsters A and B but a forecast frame whose resampled pollster column lacks
B, the pollster coordinate used for forecasting differs from the training
pollster coordinate — the coordinates were rebuilt from the later data, not
reused verbatim. -/
theorem c3_counterexample :
    (coordsForBuildModel c3train (some c3forecast)).pollsters = [r"A"] ∧
    (coordsForBuildModel c3train none).pollsters = [r"A", r"B"] ∧
    coordsForBuildModel c3train (some c3forecast)
      ≠ coordsForBuildModel c3train none := by
  have h1 : (coordsForBuildModel c3train (some c3forecast)).pollsters = [r"A"] := by
    show sortedUnique [r"A", r"A"] = [r"A"]
    have hf : ([r"A"] : List String).filter (fun b => b ≠ r"A") = [] := by decide
    rw [sortedUnique, uniqueFirst_cons, hf, uniqueFirst_nil]
    decide
  have h2 : (coordsForBuildModel c3train none).pollsters = [r"A", r"B"] := by
    show sortedUnique [r"B", r"A"] = [r"A", r"B"]
    rw [sortedUnique, uniqueFirst_eq_self _ (by decide)]
    simp [List.insertionSort, List.orderedInsert]
    decide
  refine ⟨h1, h2, fun h => ?_⟩
  rw [h, h2] at h1
  exact absurd h1 (by decide)

/-- C3 amended: every build_model call derives its coordinates from the polls
frame passed in — the forecast path included — and only falls back to the
training polls when no frame is passed; because the synthetic forecast frame
is generated from the training coordinates (its election-date column repeats
each training election once per countdown day), the election coordinate
rebuilt from that frame still coincides with the training election
coordinate, but the coordinates are rebuilt from the given frame, not reused
verbatim. -/
theorem c3_coords_rebuilt (pollsTrain later oosRows : List CoordRow) (k : ℕ)
    (hk : 0 < k)
    (hoos : oosRows.map (fun r => r.dateelection)
      = repeatEach k ((buildCoords pollsTrain).elections)) :
    coordsForBuildModel pollsTrain (some later) = buildCoords later ∧
    coordsForBuildModel pollsTrain none = buildCoords pollsTrain ∧
    (buildCoords oosRows).elections = (buildCoords pollsTrain).elections := by
  refine ⟨rfl, rfl, ?_⟩
  show uniqueFirst (oosRows.map fun r => r.dateelection) = _
  rw [hoos]
  show uniqueFirst
      (repeatEach k (uniqueFirst (pollsTrain.map fun r => r.dateelection)))
    = uniqueFirst (pollsTrain.map fun r => r.dateelection)
  rw [uniqueFirst_repeatEach k hk, uniqueFirst_idem]

/-- Synthetic frame for the C3 witness: each training election repeated once
per countdown day (two days). -/
def c3oosRows : List CoordRow :=
  [⟨100, r"A", 1⟩, ⟨100, r"A", 0⟩, ⟨200, r"A", 1⟩, ⟨200, r"A", 0⟩]

/-- C3 witness: the amended theorem applied to concrete training, forecast
and synthetic frames. -/
theorem c3_coords_rebuilt_witness :
    coordsForBuildModel c3train (some c3forecast) = buildCoords c3forecast ∧
    coordsForBuildModel c3train none = buildCoords c3train ∧
    (buildCoords c3oosRows).elections = (buildCoords c3train).elections := by
  refine c3_coords_rebuilt c3train c3forecast c3oosRows 2 (by norm_num) ?_
  show [(100 : ℤ), 100, 200, 200]
    = repeatEach 2 (uniqueFirst [(100 : ℤ), 200])
  rw [uniqueFirst_eq_self _ (by decide)]
  decide

/-- The free parameters (random variables) of build_model that enter the two
observation likelihoods, over Eo + 1 elections (the last one is the election
being forecast), K pollsters and the 8 political families; the time-effect
tensors are indexed by countdown day. Values are the exact field values the
likelihood expressions combine by ring operations. -/
structure ModelParams (Eo K : ℕ) where
  partyBaseline : Fin 8 → ℚ
  electionPartyBaseline : Fin (Eo + 1) → Fin 8 → ℚ
  pollBias : Fin 8 → ℚ
  houseEffects : Fin K → Fin 8 → ℚ
  houseElectionEffects : Fin K → Fin 8 → Fin (Eo + 1) → ℚ
  unemploymentEffect : Fin 8 → ℚ
  partyTimeEffect : ℕ → Fin 8 → ℚ
  electionPartyTimeEffect : ℕ → Fin 8 → Fin (Eo + 1) → ℚ
  concentrationPolls : ℚ
  concentrationResults : ℚ

/-- The pm.Data containers of _build_data_containers together with the two
non-competing masks, over O poll observations; the result containers
(results_N, observed_results, from results_oos) have one entry per OBSERVED
election, while the results mask (from results_mult) covers all elections. -/
structure DataContainers (Eo K O : ℕ) where
  electionIdx : Fin O → Fin (Eo + 1)
  pollsterIdx : Fin O → Fin K
  countdownIdx : Fin O → ℕ
  stdzUnemp : Fin O → ℚ
  electionUnemp : Fin (Eo + 1) → ℚ
  observedN : Fin O → ℤ
  observedPolls : Fin O → Fin 8 → ℤ
  resultsN : Fin Eo → ℤ
  observedResults : Fin Eo → Fin 8 → ℤ
  pollsAdditive : Fin O → Fin 8 → ℚ
  pollsMultiplicative : Fin O → Fin 8 → ℚ
  resultsAdditive : Fin (Eo + 1) → Fin 8 → ℚ

/-- The observation-level latent popularity of build_model before softmax
(latent_mu): party baseline + election deviation + shared time effect +
election-specific time effect + unemployment regression + the non-competing
additive penalty. -/
def latentMu {Eo K O : ℕ} (p : ModelParams Eo K) (d : DataContainers Eo K O)
    (i : Fin O) (f : Fin 8) : ℚ :=
  p.partyBaseline f + p.electionPartyBaseline (d.electionIdx i) f
    + p.partyTimeEffect (d.countdownIdx i) f
    + p.electionPartyTimeEffect (d.countdownIdx i) f (d.electionIdx i)
    + d.stdzUnemp i * p.unemploymentEffect f
    + d.pollsAdditive i f

/-- The noisy popularity argument of build_model (noisy_mu): latent_mu plus
the shared poll bias, the pollster house effect, and the election-specific
house effect scaled by the non-competing multiplicative mask. -/
def noisyMu {Eo K O : ℕ} (p : ModelParams Eo K) (d : DataContainers Eo K O)
    (i : Fin O) (f : Fin 8) : ℚ :=
  latentMu p d i f + p.pollBias f + p.houseEffects (d.pollsterIdx i) f
    + p.houseElectionEffects (d.pollsterIdx i) f (d.electionIdx i)
      * d.pollsMultiplicative i f

/-- The election-day latent popularity of build_model before softmax
(latent_mu_t0): the party baseline, the full election deviation tensor, the
time effects evaluated at countdown index 0, the election-level unemployment
covariate and the results non-competing mask — and no pollster terms. -/
def latentMuT0 {Eo K O : ℕ} (p : ModelParams Eo K) (d : DataContainers Eo K O)
    (e : Fin (Eo + 1)) (f : Fin 8) : ℚ :=
  p.partyBaseline f + p.electionPartyBaseline e f + p.partyTimeEffect 0 f
    + p.electionPartyTimeEffect 0 f e
    + d.electionUnemp e * p.unemploymentEffect f
    + d.resultsAdditive e f

/-- One Dirichlet-Multinomial observation node of the model: the
concentration vector supplied to pm.DirichletMultinomial is
concentration * softmax(muPre), with the given trial count and observed
counts. -/
structure DirMultObs where
  concentration : ℚ
  muPre : Fin 8 → ℚ
  trials : ℤ
  observed : Fin 8 → ℤ

/-- The poll likelihood node N_approve of build_model at observation i:
concentration_polls * softmax(noisy_mu), observed poll counts and trials. -/
def pollLikelihood {Eo K O : ℕ} (p : ModelParams Eo K)
    (d : DataContainers Eo K O) (i : Fin O) : DirMultObs :=
  ⟨p.concentrationPolls, fun f => noisyMu p d i f, d.observedN i,
    d.observedPolls i⟩

/-- The result likelihood node R of build_model: latent_pop_t0[:-1] restricts
to the Eo observed elections (every election except the last, the one being
forecast; j.castSucc is the index of observed election j among all
elections), with concentration_results and the observed vote counts. -/
def resultLikelihood {Eo K O : ℕ} (p : ModelParams Eo K)
    (d : DataContainers Eo K O) (j : Fin Eo) : DirMultObs :=
  ⟨p.concentrationResults, fun f => latentMuT0 p d j.castSucc f,
    d.resultsN j, d.observedResults j⟩

/-- C6: the result likelihood R is a Dirichlet-Multinomial whose
concentration parameter is concentration_results while the poll likelihood
uses concentration_polls; R is invariant under arbitrary changes of the
pollster terms (poll bias, house effects, election house effects) and of
concentration_polls; its pre-softmax argument coincides with the poll
latent-popularity expression latent_mu at any pseudo-observation carrying
the same election, countdown index 0, the election-day covariate and the
results non-competing mask; it is evaluated against the observed vote counts
of the observed elections, and its election index is never the last
(forecast) election. -/
theorem c6_result_likelihood {Eo K O Q : ℕ} (p : ModelParams Eo K)
    (d : DataContainers Eo K O) (j : Fin Eo)
    (pb : Fin 8 → ℚ) (he : Fin K → Fin 8 → ℚ)
    (hee : Fin K → Fin 8 → Fin (Eo + 1) → ℚ) (cp : ℚ)
    (d2 : DataContainers Eo K Q) (i : Fin Q)
    (h1 : d2.electionIdx i = j.castSucc) (h2 : d2.countdownIdx i = 0)
    (h3 : d2.stdzUnemp i = d.electionUnemp j.castSucc)
    (h4 : ∀ f, d2.pollsAdditive i f = d.resultsAdditive j.castSucc f) :
    (resultLikelihood p d j).concentration = p.concentrationResults ∧
    (pollLikelihood p d2 i).concentration = p.concentrationPolls ∧
    resultLikelihood
        { p with
          pollBias := pb
          houseEffects := he
          houseElectionEffects := hee
          concentrationPolls := cp } d j
      = resultLikelihood p d j ∧
    (∀ f, (resultLikelihood p d j).muPre f = latentMu p d2 i f) ∧
    (resultLikelihood p d j).trials = d.resultsN j ∧
    (resultLikelihood p d j).observed = d.observedResults j ∧
    j.castSucc ≠ Fin.last Eo := by
  refine ⟨rfl, rfl, rfl, ?_, rfl, rfl, Fin.ne_of_lt (Fin.castSucc_lt_last j)⟩
  intro f
  show latentMuT0 p d j.castSucc f = latentMu p d2 i f
  unfold latentMuT0 latentMu
  rw [h1, h2, h3, h4 f]

/-- Concrete model parameters for the C6 witness: one observed election (two
in total), one pollster. -/
def exParams : ModelParams 1 1 where
  partyBaseline := fun _ => 1
  electionPartyBaseline := fun _ _ => 0
  pollBias := fun _ => 5
  houseEffects := fun _ _ => 0
  houseElectionEffects := fun _ _ _ => 0
  unemploymentEffect := fun _ => 0
  partyTimeEffect := fun _ _ => 0
  electionPartyTimeEffect := fun _ _ _ => 0
  concentrationPolls := 3
  concentrationResults := 7

/-- Concrete data containers for the C6 witness: one observation whose
election is the observed election, countdown 0, matching covariate/masks. -/
def exData : DataContainers 1 1 1 where
  electionIdx := fun _ => 0
  pollsterIdx := fun _ => 0
  countdownIdx := fun _ => 0
  stdzUnemp := fun _ => 0
  electionUnemp := fun _ => 0
  observedN := fun _ => 1000
  observedPolls := fun _ _ => 125
  resultsN := fun _ => 360000
  observedResults := fun _ _ => 45000
  pollsAdditive := fun _ _ => 0
  pollsMultiplicative := fun _ _ => 0
  resultsAdditive := fun _ _ => 0

/-- C6 witness: the theorem applied to the concrete parameters and data. -/
theorem c6_result_likelihood_witness :
    (resultLikelihood exParams exData 0).concentration = 7 ∧
    (pollLikelihood exParams exData 0).concentration = 3 ∧
    (resultLikelihood exParams exData 0).muPre 0 = latentMu exParams exData 0 0 := by
  obtain ⟨a, b, -, dmu, -, -, -⟩ := c6_result_likelihood exParams exData 0
    (fun _ => 0) (fun _ _ => 0) (fun _ _ _ => 0) 0 exData 0 rfl rfl rfl
    (fun _ => rfl)
  exact ⟨by rw [a]; rfl, by rw [b]; rfl, dmu 0⟩

/-- polls[political_families].astype(bool).astype(int) entrywise: 1 when the
count is nonzero, 0 when it is zero. -/
def isHere (c : ℤ) : ℤ := if c ≠ 0 then 1 else 0

/-- pandas Series.replace(to_replace = old, value = val) entrywise. -/
def replaceVal (v old val : ℤ) : ℤ := if v = old then val else v

/-- The additive non-competing penalty of _build_data_containers:
is_here.replace(0, -10).replace(1, 0). -/
def pollsAdditiveOf (c : ℤ) : ℤ := replaceVal (replaceVal (isHere c) 0 (-10)) 1 0

/-- The multiplicative non-competing mask of _build_data_containers:
is_here itself (polls_multiplicative). -/
def pollsMultiplicativeOf (c : ℤ) : ℤ := isHere c

/-- C10: in the assembled model a family is treated as non-competing exactly
when its encoded multinomial count is zero: the additive penalty is -10 and
the house-effect multiplier is 0 if and only if the count of the encoded row
is 0; any nonzero (in particular positive) count gets penalty 0 and
multiplier 1 — so a family whose positive share rounds to count 0 is treated
as absent; and whenever the multiplicative mask stored in the data containers
is 0, the election-specific house-effect term vanishes from noisy_mu. -/
theorem c10_non_competing_iff_zero_count (shares : Fin 8 → Option ℚ) (n : ℚ)
    (f : Fin 8) {Eo K O : ℕ} (p : ModelParams Eo K) (d : DataContainers Eo K O)
    (i : Fin O) :
    ((pollsAdditiveOf ((castAsMultinomial shares n).1 f) = -10 ∧
        pollsMultiplicativeOf ((castAsMultinomial shares n).1 f) = 0)
      ↔ (castAsMultinomial shares n).1 f = 0) ∧
    ((castAsMultinomial shares n).1 f ≠ 0 →
      pollsAdditiveOf ((castAsMultinomial shares n).1 f) = 0 ∧
      pollsMultiplicativeOf ((castAsMultinomial shares n).1 f) = 1) ∧
    (d.pollsMultiplicative i f = 0 →
      noisyMu p d i f
        = latentMu p d i f + p.pollBias f + p.houseEffects (d.pollsterIdx i) f) := by
  refine ⟨?_, ?_, ?_⟩
  · constructor
    · intro hmask
      by_contra hne
      have := hmask.2
      rw [pollsMultiplicativeOf, isHere, if_pos hne] at this
      exact one_ne_zero this
    · intro h0
      rw [h0]
      constructor
      · rfl
      · rfl
  · intro hne
    constructor
    · rw [pollsAdditiveOf, isHere, if_pos hne]
      rfl
    · rw [pollsMultiplicativeOf, isHere, if_pos hne]
  · intro hmask
    rw [noisyMu, hmask, mul_zero, add_zero]

/-- Concrete shares for the C10 witness: family 0 fields a candidate with a
positive share of 0.3 percent; with samplesize 50 its count rounds to 0. -/
def c10shares : Fin 8 → Option ℚ := fun f => if f = 0 then some (3 / 10) else none

/-- C10 witness: the theorem applied to the concrete row — the family with
positive share 0.3 has count 0 and is treated as absent (penalty -10,
multiplier 0), and with the masks of the concrete data containers the
house-election term drops out of noisy_mu. -/
theorem c10_non_competing_witness :
    (castAsMultinomial c10shares 50).1 0 = 0 ∧
    c10shares 0 = some (3 / 10) ∧ (0 : ℚ) < 3 / 10 ∧
    pollsAdditiveOf ((castAsMultinomial c10shares 50).1 0) = -10 ∧
    pollsMultiplicativeOf ((castAsMultinomial c10shares 50).1 0) = 0 ∧
    noisyMu exParams exData 0 0
      = latentMu exParams exData 0 0 + exParams.pollBias 0
        + exParams.houseEffects (exData.pollsterIdx 0) 0 := by
  have hs : c10shares 0 = some (3 / 10) := rfl
  have hcount : (castAsMultinomial c10shares 50).1 0 = 0 := by
    show castCounts c10shares 50 0 = 0
    unfold castCounts
    rw [hs]
    show roundHalfEven (3 / 10 / 100 * 50) = 0
    rw [show (3 : ℚ) / 10 / 100 * 50 = 3 / 20 by norm_num]
    rw [roundHalfEven]
    rw [show ⌊(3 : ℚ) / 20⌋ = 0 by norm_num [Int.floor_eq_iff]]
    norm_num
  have hmask :=
    (c10_non_competing_iff_zero_count c10shares 50 0 exParams exData 0).1.mpr hcount
  have hnoisy :=
    (c10_non_competing_iff_zero_count c10shares 50 0 exParams exData 0).2.2 rfl
  exact ⟨hcount, rfl, by norm_num, hmask.1, hmask.2, hnoisy⟩
